import Mathlib

/-!
Shallow embedding of the file2qr program (src/main.go): the content
preparer (raw vs Base64 payload), the recovery-level selector, the
glyph-based terminal renderer `displayImageInTerminal`, the `isTerminal`
check, and the control flow of `main` after flag parsing and input
reading.  Go strings are byte strings, so payloads are modelled as lists
of byte values (`List Nat`, each element < 256 for genuine bytes).
-/

namespace File2qr

/-- Modelled from the spec: the standard Base64 alphabet of RFC 4648
("standard alphabet, padded"), as byte values: `A`–`Z`, `a`–`z`, `0`–`9`,
`+`, `/`.  Go's `base64.StdEncoding` (standard library, not part of this
repository) uses exactly this table. -/
def b64Table : List Nat :=
  [65, 66, 67, 68, 69, 70, 71, 72, 73, 74, 75, 76, 77, 78, 79, 80,
   81, 82, 83, 84, 85, 86, 87, 88, 89, 90,
   97, 98, 99, 100, 101, 102, 103, 104, 105, 106, 107, 108, 109, 110,
   111, 112, 113, 114, 115, 116, 117, 118, 119, 120, 121, 122,
   48, 49, 50, 51, 52, 53, 54, 55, 56, 57, 43, 47]

/-- The byte value of the Base64 padding character `=`. -/
def padByte : Nat := 61

/-- The alphabet byte for a 6-bit value. -/
def b64Byte (n : Nat) : Nat := b64Table.getD n 65

/-- Modelled from the spec: `base64.StdEncoding.EncodeToString` (Go
standard library): each group of 3 input bytes becomes 4 alphabet bytes;
a trailing group of 1 or 2 bytes is completed with two or one `=` bytes. -/
def encodeToString : List Nat → List Nat
  | [] => []
  | [b0] => [b64Byte (b0 / 4), b64Byte (b0 % 4 * 16), padByte, padByte]
  | [b0, b1] => [b64Byte (b0 / 4), b64Byte (b0 % 4 * 16 + b1 / 16),
                 b64Byte (b1 % 16 * 4), padByte]
  | b0 :: b1 :: b2 :: rest =>
      b64Byte (b0 / 4) :: b64Byte (b0 % 4 * 16 + b1 / 16) ::
      b64Byte (b1 % 16 * 4 + b2 / 64) :: b64Byte (b2 % 64) ::
      encodeToString rest

/-- Modelled from the spec: the 6-bit value of an alphabet byte
(position in the standard table). -/
def b64Index (c : Nat) : Nat := b64Table.indexOf c

/-- Modelled from the spec: standard Base64 decoding of one 4-byte
group, honouring `=` padding in the last two positions. -/
def decodeQuad (c0 c1 c2 c3 : Nat) : List Nat :=
  if c2 = padByte then
    [b64Index c0 * 4 + b64Index c1 / 16]
  else if c3 = padByte then
    [b64Index c0 * 4 + b64Index c1 / 16,
     b64Index c1 % 16 * 16 + b64Index c2 / 4]
  else
    [b64Index c0 * 4 + b64Index c1 / 16,
     b64Index c1 % 16 * 16 + b64Index c2 / 4,
     b64Index c2 % 4 * 64 + b64Index c3]

/-- Modelled from the spec: standard Base64 decoding, consuming the text
four bytes at a time. -/
def decodeBase64 : List Nat → List Nat
  | c0 :: c1 :: c2 :: c3 :: rest => decodeQuad c0 c1 c2 c3 ++ decodeBase64 rest
  | _ => []

theorem b64Index_b64Byte : ∀ n < 64, b64Index (b64Byte n) = n := by decide

theorem b64Byte_ne_padByte : ∀ n < 64, b64Byte n ≠ padByte := by decide

theorem b64Byte_mem_table : ∀ n < 64, b64Byte n ∈ b64Table := by decide

theorem decodeBase64_encodeToString :
    ∀ B : List Nat, (∀ b ∈ B, b < 256) → decodeBase64 (encodeToString B) = B := by
  intro B
  induction B using encodeToString.induct with
  | case1 => intro _; rfl
  | case2 b0 =>
    intro h
    have hb0 : b0 < 256 := h b0 (by simp)
    have i0 := b64Index_b64Byte (b0 / 4) (by omega)
    have i1 := b64Index_b64Byte (b0 % 4 * 16) (by omega)
    simp [encodeToString, decodeBase64, decodeQuad, i0, i1]
    omega
  | case3 b0 b1 =>
    intro h
    have hb0 : b0 < 256 := h b0 (by simp)
    have hb1 : b1 < 256 := h b1 (by simp)
    have n2 : b64Byte (b1 % 16 * 4) ≠ padByte := b64Byte_ne_padByte _ (by omega)
    have i0 := b64Index_b64Byte (b0 / 4) (by omega)
    have i1 := b64Index_b64Byte (b0 % 4 * 16 + b1 / 16) (by omega)
    have i2 := b64Index_b64Byte (b1 % 16 * 4) (by omega)
    simp [encodeToString, decodeBase64, decodeQuad, n2, i0, i1, i2]
    omega
  | case4 b0 b1 b2 rest ih =>
    intro h
    have hb0 : b0 < 256 := h b0 (by simp)
    have hb1 : b1 < 256 := h b1 (by simp)
    have hb2 : b2 < 256 := h b2 (by simp)
    have n2 : b64Byte (b1 % 16 * 4 + b2 / 64) ≠ padByte := b64Byte_ne_padByte _ (by omega)
    have n3 : b64Byte (b2 % 64) ≠ padByte := b64Byte_ne_padByte _ (by omega)
    have i0 := b64Index_b64Byte (b0 / 4) (by omega)
    have i1 := b64Index_b64Byte (b0 % 4 * 16 + b1 / 16) (by omega)
    have i2 := b64Index_b64Byte (b1 % 16 * 4 + b2 / 64) (by omega)
    have i3 := b64Index_b64Byte (b2 % 64) (by omega)
    have ih2 := ih (fun b hb => h b (by simp [hb]))
    simp [encodeToString, decodeBase64, decodeQuad, n2, n3, i0, i1, i2, i3, ih2]
    omega

theorem encodeToString_length :
    ∀ B : List Nat, (encodeToString B).length = 4 * ((B.length + 2) / 3) := by
  intro B
  induction B using encodeToString.induct with
  | case1 => rfl
  | case2 b0 =>
    simp [encodeToString]
  | case3 b0 b1 =>
    simp [encodeToString]
  | case4 b0 b1 b2 rest ih =>
    simp only [encodeToString, List.length_cons, ih]
    omega

theorem encodeToString_padding :
    ∀ B : List Nat, (∀ b ∈ B, b < 256) →
      (B.length % 3 = 0 → ∀ c ∈ encodeToString B, c ∈ b64Table) ∧
      (B.length % 3 = 1 → ∃ pre, encodeToString B = pre ++ [padByte, padByte] ∧
        ∀ c ∈ pre, c ∈ b64Table) ∧
      (B.length % 3 = 2 → ∃ pre, encodeToString B = pre ++ [padByte] ∧
        ∀ c ∈ pre, c ∈ b64Table) := by
  intro B
  induction B using encodeToString.induct with
  | case1 =>
    intro _
    refine ⟨fun _ c hc => absurd hc (by simp [encodeToString]), fun h1 => by simp at h1,
      fun h2 => by simp at h2⟩
  | case2 b0 =>
    intro h
    have hb0 : b0 < 256 := h b0 (by simp)
    refine ⟨fun h0 => by simp at h0, fun _ => ⟨[b64Byte (b0 / 4), b64Byte (b0 % 4 * 16)], rfl, ?_⟩,
      fun h2 => by simp at h2⟩
    intro c hc
    simp only [List.mem_cons, List.not_mem_nil, or_false] at hc
    rcases hc with hc | hc <;> subst hc <;> exact b64Byte_mem_table _ (by omega)
  | case3 b0 b1 =>
    intro h
    have hb0 : b0 < 256 := h b0 (by simp)
    have hb1 : b1 < 256 := h b1 (by simp)
    refine ⟨fun h0 => by simp at h0, fun h1 => by simp at h1,
      fun _ => ⟨[b64Byte (b0 / 4), b64Byte (b0 % 4 * 16 + b1 / 16), b64Byte (b1 % 16 * 4)],
        rfl, ?_⟩⟩
    intro c hc
    simp only [List.mem_cons, List.not_mem_nil, or_false] at hc
    rcases hc with hc | hc | hc <;> subst hc <;> exact b64Byte_mem_table _ (by omega)
  | case4 b0 b1 b2 rest ih =>
    intro h
    have hb0 : b0 < 256 := h b0 (by simp)
    have hb1 : b1 < 256 := h b1 (by simp)
    have hb2 : b2 < 256 := h b2 (by simp)
    have hq : ∀ c ∈ [b64Byte (b0 / 4), b64Byte (b0 % 4 * 16 + b1 / 16),
        b64Byte (b1 % 16 * 4 + b2 / 64), b64Byte (b2 % 64)], c ∈ b64Table := by
      intro c hc
      simp only [List.mem_cons, List.not_mem_nil, or_false] at hc
      rcases hc with hc | hc | hc | hc <;> subst hc <;> exact b64Byte_mem_table _ (by omega)
    have ih2 := ih (fun b hb => h b (by simp [hb]))
    have hlen : (b0 :: b1 :: b2 :: rest).length % 3 = rest.length % 3 := by
      simp [List.length_cons]
      omega
    refine ⟨fun h0 => ?_, fun h1 => ?_, fun h2 => ?_⟩
    · intro c hc
      simp only [encodeToString, List.mem_cons] at hc
      rcases hc with hc | hc | hc | hc | hc
      · exact hc ▸ b64Byte_mem_table _ (by omega)
      · exact hc ▸ b64Byte_mem_table _ (by omega)
      · exact hc ▸ b64Byte_mem_table _ (by omega)
      · exact hc ▸ b64Byte_mem_table _ (by omega)
      · exact ih2.1 (by omega) c hc
    · obtain ⟨pre, hpre, hmem⟩ := ih2.2.1 (by omega)
      refine ⟨b64Byte (b0 / 4) :: b64Byte (b0 % 4 * 16 + b1 / 16) ::
        b64Byte (b1 % 16 * 4 + b2 / 64) :: b64Byte (b2 % 64) :: pre, ?_, ?_⟩
      · simp [encodeToString, hpre]
      · intro c hc
        simp only [List.mem_cons] at hc
        rcases hc with hc | hc | hc | hc | hc
        · exact hc ▸ b64Byte_mem_table _ (by omega)
        · exact hc ▸ b64Byte_mem_table _ (by omega)
        · exact hc ▸ b64Byte_mem_table _ (by omega)
        · exact hc ▸ b64Byte_mem_table _ (by omega)
        · exact hmem c hc
    · obtain ⟨pre, hpre, hmem⟩ := ih2.2.2 (by omega)
      refine ⟨b64Byte (b0 / 4) :: b64Byte (b0 % 4 * 16 + b1 / 16) ::
        b64Byte (b1 % 16 * 4 + b2 / 64) :: b64Byte (b2 % 64) :: pre, ?_, ?_⟩
      · simp [encodeToString, hpre]
      · intro c hc
        simp only [List.mem_cons] at hc
        rcases hc with hc | hc | hc | hc | hc
        · exact hc ▸ b64Byte_mem_table _ (by omega)
        · exact hc ▸ b64Byte_mem_table _ (by omega)
        · exact hc ▸ b64Byte_mem_table _ (by omega)
        · exact hc ▸ b64Byte_mem_table _ (by omega)
        · exact hmem c hc

/-- The content-preparation step of `main` (src/main.go, lines 176–185):
`qrContent` is `base64.StdEncoding.EncodeToString(inputData)` when the
`-b` flag is set and `string(inputData)` (the same bytes, reinterpreted
as a string with no validation) otherwise. -/
def prepareContent (base64Flag : Bool) (inputData : List Nat) : List Nat :=
  if base64Flag then encodeToString inputData else inputData

/-- Go `strings.ToLower` on one code point (Unicode simple case
mapping).  Besides ASCII `A`–`Z`, the only code points whose simple
lowercase is an ASCII letter are U+0130 (to `i`) and U+212A (to `k`);
all other code points are kept unchanged here, which never affects a
comparison against the four all-ASCII-lowercase recovery tokens. -/
def goToLowerChar (c : Char) : Char :=
  if 'A' ≤ c ∧ c ≤ 'Z' then Char.ofNat (c.toNat + 32)
  else if c.toNat = 0x130 then 'i'
  else if c.toNat = 0x212A then 'k'
  else c

/-- Go `strings.ToLower`: the per-code-point simple case mapping over
the whole string. -/
def goToLower (s : String) : String := String.mk (s.data.map goToLowerChar)

/-- The four QR error-correction levels of the external
`github.com/skip2/go-qrcode` package. -/
inductive RecoveryLevel
  | Low
  | Medium
  | High
  | Highest
deriving DecidableEq, Repr

/-- The recovery-level switch of `main` (src/main.go, lines 188–200):
lower-case the `-r` flag value and map the four known tokens, defaulting
to `Medium` for anything else. -/
def selectRecoveryLevel (recovery : String) : RecoveryLevel :=
  match goToLower recovery with
  | "low" => RecoveryLevel.Low
  | "medium" => RecoveryLevel.Medium
  | "high" => RecoveryLevel.High
  | "highest" => RecoveryLevel.Highest
  | _ => RecoveryLevel.Medium

/-- A colour as returned by Go's `Color.RGBA()`: four channel values
(alpha-premultiplied, 16-bit range). -/
structure GoColor where
  r : Nat
  g : Nat
  b : Nat
  a : Nat

/-- A Go `image.Image`: a rectangle of bounds and a colour for every
pixel coordinate.  `pixelAt x y` embeds `img.At(x, y)`. -/
structure GoImage where
  minX : Int
  minY : Int
  maxX : Int
  maxY : Int
  pixelAt : Int → Int → GoColor

/-- Go `bounds.Dx()`. -/
def dx (img : GoImage) : Int := img.maxX - img.minX

/-- Go `bounds.Dy()`. -/
def dy (img : GoImage) : Int := img.maxY - img.minY

/-- The two-space horizontal padding constant of
`displayImageInTerminal` (src/main.go, line 53). -/
def horizontalPadding : String := "  "

/-- The glyph choice for one cell of `displayImageInTerminal`
(src/main.go, lines 62–85): read the top and bottom pixel of the column,
take their alpha channels, and pick full block / upper half / lower
half / space. -/
def cellGlyph (img : GoImage) (x y : Int) : Char :=
  if (img.pixelAt x y).a > 0 ∧ (img.pixelAt x (y + 1)).a > 0 then '█'
  else if (img.pixelAt x y).a > 0 then '▀'
  else if (img.pixelAt x (y + 1)).a > 0 then '▄'
  else ' '

/-- One emitted row of `displayImageInTerminal` (src/main.go, lines
60–88): the padding, then one glyph per column `x` from `minX` to
`maxX - 1`, then the padding again. -/
def renderRow (img : GoImage) (y : Int) : List Char :=
  horizontalPadding.data ++
    (List.range (dx img).toNat).map (fun (i : Nat) => cellGlyph img (img.minX + (i : Int)) y) ++
    horizontalPadding.data

/-- The row loop of `displayImageInTerminal` (src/main.go, line 59):
`for y := bounds.Min.Y; y < bounds.Max.Y-1; y += 2`.  `fuel` bounds the
number of iterations; the loop runs at most `⌈(maxY-1-minY)/2⌉ ≤ Dy`
times, and the caller passes `Dy().toNat`, so the bound is never hit. -/
def renderRowsFuel (img : GoImage) : Nat → Int → List (List Char)
  | 0, _ => []
  | fuel + 1, y =>
    if y < img.maxY - 1 then renderRow img y :: renderRowsFuel img fuel (y + 2)
    else []

/-- The glyph rows emitted by `displayImageInTerminal` (excluding the
blank framing lines printed before and after them). -/
def glyphRows (img : GoImage) : List (List Char) :=
  renderRowsFuel img (dy img).toNat img.minY

/-- The diagnostic messages the program writes to standard error, one
constructor per `fmt.Fprintf(os.Stderr, ...)` format string of
src/main.go (format arguments kept, fixed text elided). -/
inductive Msg
  | base64Info (chars : Nat)
  | invalidDims
  | genError (err : String)
  | contentTooLarge (bytes : Nat)
  | tryReducing
  | saveError (err : String)
  | savedTo (path : String)
  | notTerminal
  | origSize (bytes : Nat)
  | b64Size (chars : Nat)
  | dataSize (bytes : Nat)
deriving DecidableEq, Repr

/-- What `displayImageInTerminal` (src/main.go, lines 40–93) writes: the
lines printed to standard output and the messages printed to standard
error.  On invalid dimensions it reports and returns before printing
anything to standard output; otherwise it prints a blank framing line,
the glyph rows, and a closing blank framing line. -/
structure DisplayOutput where
  stdoutLines : List (List Char)
  stderrMsgs : List Msg
deriving DecidableEq

def displayImageInTerminal (img : GoImage) : DisplayOutput :=
  if dx img ≤ 0 ∨ dy img ≤ 0 then
    { stdoutLines := [], stderrMsgs := [Msg.invalidDims] }
  else
    { stdoutLines := [[]] ++ glyphRows img ++ [[]], stderrMsgs := [] }

/-- The process environment consulted by `isTerminal`: the outcome of
`os.Stdout.Stat()` and the character-device bit of standard output,
plus — for stating the specification — whether standard error is a
character device, which the program never actually consults. -/
structure Env where
  stdoutStatErr : Bool
  stdoutCharDev : Bool
  stderrCharDev : Bool

/-- The file descriptor value `os.Stdout.Fd()`. -/
def stdoutFd : Nat := 1

/-- The file descriptor value `os.Stderr.Fd()`. -/
def stderrFd : Nat := 2

/-- `isTerminal` (src/main.go, lines 246–257): despite taking an `fd`
parameter it stats `os.Stdout` unconditionally, returns `false` if the
stat fails, and otherwise tests the `os.ModeCharDevice` bit of standard
output's mode. -/
def isTerminal (env : Env) (fd : Nat) : Bool :=
  if env.stdoutStatErr then false else env.stdoutCharDev

/-- The command-line flag values of `main` relevant after parsing. -/
structure Flags where
  outputFile : String
  size : Int
  recovery : String
  terminalSize : Int
  base64Flag : Bool

/-- The external `qrcode.QRCode` value: `Image(size)` rasterizes the
symbol at a size and `WriteFile(size, path)` writes the PNG, possibly
failing. -/
structure QrCode where
  image : Int → GoImage
  writeFile : Int → String → Except String Unit

/-- The observable outcome of one invocation of `main`: the exit
status, the standard-error messages in order, the standard-output
lines, whether `displayImageInTerminal` was invoked, and whether
`WriteFile` was invoked. -/
structure MainResult where
  exitCode : Nat
  stderr : List Msg
  stdoutLines : List (List Char)
  displayed : Bool
  wroteFile : Bool
deriving DecidableEq

/-- `main` from content preparation onward (src/main.go, lines
176–244), with the external `qrcode.New` passed in as `qrNew` and the
process environment as `env`.  Mirrors the source: prepare the payload
(with the Base64 diagnostic), select the recovery level, generate the
symbol (on failure report, add the size hint when the payload exceeds
2900 bytes, and exit 1), then either write the PNG (`-o` set) or render
to the terminal (only when `isTerminal` holds for standard output,
otherwise report and exit 1), and finally print the size statistics. -/
def runMain (env : Env) (flags : Flags)
    (qrNew : List Nat → RecoveryLevel → Except String QrCode)
    (inputData : List Nat) : MainResult :=
  let qrContent := prepareContent flags.base64Flag inputData
  let prepMsgs : List Msg :=
    if flags.base64Flag && isTerminal env stderrFd then
      [Msg.base64Info qrContent.length]
    else []
  let recLevel := selectRecoveryLevel flags.recovery
  let statsMsgs : List Msg :=
    if isTerminal env stderrFd then
      if flags.base64Flag then
        [Msg.origSize inputData.length, Msg.b64Size qrContent.length]
      else [Msg.dataSize inputData.length]
    else []
  match qrNew qrContent recLevel with
  | Except.error e =>
    { exitCode := 1
      stderr := prepMsgs ++ [Msg.genError e] ++
        (if qrContent.length > 2900 then
          [Msg.contentTooLarge qrContent.length, Msg.tryReducing]
        else [])
      stdoutLines := []
      displayed := false
      wroteFile := false }
  | Except.ok qr =>
    if flags.outputFile ≠ "" then
      match qr.writeFile flags.size flags.outputFile with
      | Except.error e =>
        { exitCode := 1
          stderr := prepMsgs ++ [Msg.saveError e]
          stdoutLines := []
          displayed := false
          wroteFile := true }
      | Except.ok _ =>
        { exitCode := 0
          stderr := prepMsgs ++
            (if isTerminal env stderrFd then [Msg.savedTo flags.outputFile] else []) ++
            statsMsgs
          stdoutLines := []
          displayed := false
          wroteFile := true }
    else
      if isTerminal env stdoutFd then
        let d := displayImageInTerminal (qr.image flags.terminalSize)
        { exitCode := 0
          stderr := prepMsgs ++ d.stderrMsgs ++ statsMsgs
          stdoutLines := d.stdoutLines
          displayed := true
          wroteFile := false }
      else
        { exitCode := 1
          stderr := prepMsgs ++ [Msg.notTerminal]
          stdoutLines := []
          displayed := false
          wroteFile := false }

theorem renderRowsFuel_length (img : GoImage) :
    ∀ (fuel : Nat) (y : Int), img.maxY - 1 - y ≤ 2 * (fuel : Int) →
      (renderRowsFuel img fuel y).length = ((img.maxY - 1 - y).toNat + 1) / 2 := by
  intro fuel
  induction fuel with
  | zero =>
    intro y h
    simp only [renderRowsFuel, List.length_nil]
    omega
  | succ n ih =>
    intro y h
    simp only [renderRowsFuel]
    split
    · rename_i hy
      rw [List.length_cons, ih (y + 2) (by omega)]
      omega
    · rename_i hy
      simp only [List.length_nil]
      omega

theorem renderRowsFuel_shape (img : GoImage) :
    ∀ (fuel : Nat) (y : Int), ∀ row ∈ renderRowsFuel img fuel y,
      ∃ y2 : Int, row = renderRow img y2 := by
  intro fuel
  induction fuel with
  | zero => intro y row hrow; simp [renderRowsFuel] at hrow
  | succ n ih =>
    intro y row hrow
    simp only [renderRowsFuel] at hrow
    split at hrow
    · rcases List.mem_cons.mp hrow with h | h
      · exact ⟨y, h⟩
      · exact ih (y + 2) row h
    · simp at hrow

theorem glyphRows_length (img : GoImage) (hh : 1 ≤ dy img) :
    (glyphRows img).length = (dy img).toNat / 2 := by
  have h := renderRowsFuel_length img (dy img).toNat img.minY (by
    simp only [dy] at hh ⊢
    omega)
  rw [glyphRows, h]
  simp only [dy] at hh ⊢
  omega

theorem glyphRows_rows (img : GoImage) :
    ∀ row ∈ glyphRows img, ∃ y : Int, row = renderRow img y := by
  intro row hrow
  exact renderRowsFuel_shape img (dy img).toNat img.minY row hrow

/-- A 1-wide, 2-tall fully inked bitmap. -/
def img1x2 : GoImage :=
  { minX := 0, minY := 0, maxX := 1, maxY := 2, pixelAt := fun _ _ => ⟨0, 0, 0, 65535⟩ }

/-- A 2-wide, 2-tall fully inked bitmap. -/
def img2x2 : GoImage :=
  { minX := 0, minY := 0, maxX := 2, maxY := 2, pixelAt := fun _ _ => ⟨0, 0, 0, 65535⟩ }

/-- A 2-wide, 2-tall fully blank bitmap (every alpha 0). -/
def img2x2Blank : GoImage :=
  { minX := 0, minY := 0, maxX := 2, maxY := 2, pixelAt := fun _ _ => ⟨0, 0, 0, 0⟩ }

/-- An empty bitmap (zero-size bounds). -/
def imgEmpty : GoImage :=
  { minX := 0, minY := 0, maxX := 0, maxY := 0, pixelAt := fun _ _ => ⟨0, 0, 0, 0⟩ }

/-- A symbol whose rasterization is `img2x2` and whose PNG write always
succeeds. -/
def qrSample : QrCode := { image := fun _ => img2x2, writeFile := fun _ _ => Except.ok () }

/-- A symbol whose rasterization has empty bounds. -/
def qrEmpty : QrCode := { image := fun _ => imgEmpty, writeFile := fun _ _ => Except.ok () }

/-- A generator that always succeeds with `qrSample`. -/
def qrNewOk : List Nat → RecoveryLevel → Except String QrCode := fun _ _ => Except.ok qrSample

/-- A generator that always succeeds with `qrEmpty`. -/
def qrNewEmpty : List Nat → RecoveryLevel → Except String QrCode :=
  fun _ _ => Except.ok qrEmpty

/-- A generator that always fails. -/
def qrNewFail : List Nat → RecoveryLevel → Except String QrCode :=
  fun _ _ => Except.error "capacity"

/-- An environment where both standard streams are character devices. -/
def envBothTerm : Env := { stdoutStatErr := false, stdoutCharDev := true, stderrCharDev := true }

/-- An environment where standard output is a character device but
standard error is redirected (not a character device). -/
def envStdoutTermOnly : Env :=
  { stdoutStatErr := false, stdoutCharDev := true, stderrCharDev := false }

/-- An environment where standard error is a character device but
standard output is redirected (not a character device). -/
def envStderrTermOnly : Env :=
  { stdoutStatErr := false, stdoutCharDev := false, stderrCharDev := true }

/-- The default flag values with no output file. -/
def flagsTerm : Flags :=
  { outputFile := "", size := 256, recovery := "medium", terminalSize := 40, base64Flag := false }

/-- The default flag values with an output file. -/
def flagsOut : Flags :=
  { outputFile := "out.png", size := 256, recovery := "medium", terminalSize := 40,
    base64Flag := false }

/-- C1: for every sequence of input bytes, with the Base64 flag set the
prepared payload is the standard padded Base64 encoding of the input,
and Base64-decoding that payload restores the input exactly. -/
theorem base64_payload_roundtrip (B : List Nat) (h : ∀ b ∈ B, b < 256) :
    prepareContent true B = encodeToString B ∧
    decodeBase64 (prepareContent true B) = B := by
  refine ⟨rfl, ?_⟩
  simpa [prepareContent] using decodeBase64_encodeToString B h

theorem base64_payload_roundtrip_witness :
    (∀ b ∈ [104, 101, 255, 0, 10], b < 256) ∧
    decodeBase64 (prepareContent true [104, 101, 255, 0, 10]) = [104, 101, 255, 0, 10] :=
  ⟨by decide, (base64_payload_roundtrip [104, 101, 255, 0, 10] (by decide)).2⟩

/-- C2: the recovery-level selector maps its token case-insensitively
(through Go's `strings.ToLower`): "low" to `Low`, "medium" to `Medium`,
"high" to `High`, "highest" to `Highest`, and every other token to
`Medium`, never raising an error; witnessed on concrete mixed-case and
unrecognized tokens. -/
theorem recovery_selector_spec :
    (∀ s : String, selectRecoveryLevel s =
      if goToLower s = "low" then RecoveryLevel.Low
      else if goToLower s = "medium" then RecoveryLevel.Medium
      else if goToLower s = "high" then RecoveryLevel.High
      else if goToLower s = "highest" then RecoveryLevel.Highest
      else RecoveryLevel.Medium) ∧
    selectRecoveryLevel "LOW" = RecoveryLevel.Low ∧
    selectRecoveryLevel "Medium" = RecoveryLevel.Medium ∧
    selectRecoveryLevel "hIgH" = RecoveryLevel.High ∧
    selectRecoveryLevel "HIGHEST" = RecoveryLevel.Highest ∧
    selectRecoveryLevel "quartz" = RecoveryLevel.Medium ∧
    selectRecoveryLevel "" = RecoveryLevel.Medium := by
  refine ⟨?_, by decide, by decide, by decide, by decide, by decide, by decide⟩
  intro s
  unfold selectRecoveryLevel
  split <;> simp_all

/-- C7: with the Base64 flag unset the payload is exactly the raw input
bytes, untransformed; with the flag set it is standard Base64 text of
length `4 * ⌈n/3⌉` for `n` input bytes, made of alphabet bytes closed by
two, one, or zero `=` padding bytes according to `n mod 3`. -/
theorem prepare_content_spec (B : List Nat) (h : ∀ b ∈ B, b < 256) :
    prepareContent false B = B ∧
    (prepareContent true B).length = 4 * ((B.length + 2) / 3) ∧
    (B.length % 3 = 0 → ∀ c ∈ prepareContent true B, c ∈ b64Table) ∧
    (B.length % 3 = 1 → ∃ pre, prepareContent true B = pre ++ [padByte, padByte] ∧
      ∀ c ∈ pre, c ∈ b64Table) ∧
    (B.length % 3 = 2 → ∃ pre, prepareContent true B = pre ++ [padByte] ∧
      ∀ c ∈ pre, c ∈ b64Table) := by
  have hp := encodeToString_padding B h
  exact ⟨rfl, encodeToString_length B, hp.1, hp.2.1, hp.2.2⟩

theorem prepare_content_spec_witness :
    (∀ b ∈ [200, 201, 202, 203], b < 256) ∧
    (prepareContent true [200, 201, 202, 203]).length = 4 * (([200, 201, 202, 203].length + 2) / 3) :=
  ⟨by decide, (prepare_content_spec [200, 201, 202, 203] (by decide)).2.1⟩

/-- C3 counterexample: on a bitmap of height 2 and width 1 the renderer
emits one glyph line, not `⌊(H-1)/2⌋ = 0` as claimed — the loop
`y < maxY - 1` runs once for `H = 2` because rows 0 and 1 form a
complete pair. -/
theorem glyph_line_count_claim_false :
    ¬ (glyphRows img1x2).length = (dy img1x2 - 1).toNat / 2 := by decide

/-- C3 (amended): for a bitmap of height `H ≥ 1` and width `W ≥ 1`, the
glyph-only renderer emits exactly `⌊H/2⌋` glyph lines (the trailing
unpaired row of an odd-height bitmap is dropped), and each emitted line
is exactly `W` glyph characters surrounded by the two-space padding. -/
theorem glyph_line_count (img : GoImage) (hw : 1 ≤ dx img) (hh : 1 ≤ dy img) :
    (glyphRows img).length = (dy img).toNat / 2 ∧
    ∀ row ∈ glyphRows img, ∃ cells : List Char,
      row = horizontalPadding.data ++ cells ++ horizontalPadding.data ∧
      cells.length = (dx img).toNat := by
  refine ⟨glyphRows_length img hh, ?_⟩
  intro row hrow
  obtain ⟨y, hy⟩ := glyphRows_rows img row hrow
  refine ⟨(List.range (dx img).toNat).map (fun (i : Nat) => cellGlyph img (img.minX + (i : Int)) y),
    ?_, ?_⟩
  · rw [hy, renderRow]
  · rw [List.length_map, List.length_range]

theorem glyph_line_count_witness :
    1 ≤ dx img2x2 ∧ 1 ≤ dy img2x2 ∧ (glyphRows img2x2).length = (dy img2x2).toNat / 2 :=
  ⟨by decide, by decide, (glyph_line_count img2x2 (by decide) (by decide)).1⟩

/-- C4: for every visited pixel pair, with ink meaning alpha > 0, the
emitted glyph is the full block when both pixels are ink, the upper half
block when only the top is, the lower half block when only the bottom
is, and a space when neither is; consequently a fully blank bitmap
renders only space characters between the padding and a fully inked
bitmap only full blocks. -/
theorem glyph_classification :
    (∀ (img : GoImage) (x y : Int),
      ((img.pixelAt x y).a > 0 → (img.pixelAt x (y + 1)).a > 0 → cellGlyph img x y = '█') ∧
      ((img.pixelAt x y).a > 0 → (img.pixelAt x (y + 1)).a = 0 → cellGlyph img x y = '▀') ∧
      ((img.pixelAt x y).a = 0 → (img.pixelAt x (y + 1)).a > 0 → cellGlyph img x y = '▄') ∧
      ((img.pixelAt x y).a = 0 → (img.pixelAt x (y + 1)).a = 0 → cellGlyph img x y = ' ')) ∧
    (∀ img : GoImage, (∀ x y, (img.pixelAt x y).a = 0) →
      ∀ row ∈ glyphRows img, ∃ cells : List Char,
        row = horizontalPadding.data ++ cells ++ horizontalPadding.data ∧
        ∀ c ∈ cells, c = ' ') ∧
    (∀ img : GoImage, (∀ x y, (img.pixelAt x y).a > 0) →
      ∀ row ∈ glyphRows img, ∃ cells : List Char,
        row = horizontalPadding.data ++ cells ++ horizontalPadding.data ∧
        ∀ c ∈ cells, c = '█') := by
  refine ⟨?_, ?_, ?_⟩
  · intro img x y
    refine ⟨fun h1 h2 => ?_, fun h1 h2 => ?_, fun h1 h2 => ?_, fun h1 h2 => ?_⟩ <;>
      simp only [cellGlyph] <;> split_ifs <;> first | rfl | omega
  · intro img hblank row hrow
    obtain ⟨y, hy⟩ := glyphRows_rows img row hrow
    refine ⟨(List.range (dx img).toNat).map (fun (i : Nat) => cellGlyph img (img.minX + (i : Int)) y),
      by rw [hy, renderRow], ?_⟩
    intro c hc
    simp only [List.mem_map, List.mem_range] at hc
    obtain ⟨i, _, hci⟩ := hc
    rw [← hci]
    simp [cellGlyph, hblank]
  · intro img hink row hrow
    obtain ⟨y, hy⟩ := glyphRows_rows img row hrow
    refine ⟨(List.range (dx img).toNat).map (fun (i : Nat) => cellGlyph img (img.minX + (i : Int)) y),
      by rw [hy, renderRow], ?_⟩
    intro c hc
    simp only [List.mem_map, List.mem_range] at hc
    obtain ⟨i, _, hci⟩ := hc
    rw [← hci]
    simp [cellGlyph, hink]

theorem glyph_classification_witness :
    cellGlyph img2x2 0 0 = '█' ∧ cellGlyph img2x2Blank 0 0 = ' ' :=
  ⟨(glyph_classification.1 img2x2 0 0).1 (by decide) (by decide),
   (glyph_classification.1 img2x2Blank 0 0).2.2.2 (by decide) (by decide)⟩

/-- C5: whenever symbol generation fails, the process reports the
generation error and exits with status 1, and the two hint lines
suggesting Base64 encoding or size reduction are emitted if and only if
the length of the payload actually passed to the generator exceeds
2900. -/
theorem gen_failure_behaviour (env : Env) (flags : Flags)
    (qrNew : List Nat → RecoveryLevel → Except String QrCode)
    (inputData : List Nat) (e : String)
    (hgen : qrNew (prepareContent flags.base64Flag inputData)
      (selectRecoveryLevel flags.recovery) = Except.error e) :
    (runMain env flags qrNew inputData).exitCode = 1 ∧
    Msg.genError e ∈ (runMain env flags qrNew inputData).stderr ∧
    ((Msg.contentTooLarge (prepareContent flags.base64Flag inputData).length ∈
        (runMain env flags qrNew inputData).stderr ∧
      Msg.tryReducing ∈ (runMain env flags qrNew inputData).stderr) ↔
      2900 < (prepareContent flags.base64Flag inputData).length) := by
  refine ⟨by simp [runMain, hgen], by simp [runMain, hgen], ?_⟩
  rcases Bool.eq_false_or_eq_true (flags.base64Flag && isTerminal env stderrFd) with hb | hb <;>
    by_cases hbig : 2900 < (prepareContent flags.base64Flag inputData).length <;>
    simp [runMain, hgen, hb, hbig]

theorem gen_failure_behaviour_witness :
    qrNewFail (prepareContent flagsTerm.base64Flag []) (selectRecoveryLevel flagsTerm.recovery) =
      Except.error "capacity" ∧
    (runMain envBothTerm flagsTerm qrNewFail []).exitCode = 1 ∧
    Msg.genError "capacity" ∈ (runMain envBothTerm flagsTerm qrNewFail []).stderr :=
  ⟨rfl,
   (gen_failure_behaviour envBothTerm flagsTerm qrNewFail [] "capacity" rfl).1,
   (gen_failure_behaviour envBothTerm flagsTerm qrNewFail [] "capacity" rfl).2.1⟩

/-- C6 fails on the code: `isTerminal` stats standard output no matter
which descriptor it is asked about, so with standard error redirected
but standard output a character device the size diagnostics are still
emitted, and with standard error a character device but standard output
redirected the save confirmation and size diagnostics are suppressed —
in both cases the opposite of gating on standard error. -/
theorem diagnostics_track_stdout :
    envStdoutTermOnly.stderrCharDev = false ∧
    Msg.dataSize 0 ∈ (runMain envStdoutTermOnly flagsOut qrNewOk []).stderr ∧
    envStderrTermOnly.stderrCharDev = true ∧
    (runMain envStderrTermOnly flagsOut qrNewOk []).stderr = [] := by
  refine ⟨rfl, ?_, rfl, ?_⟩ <;> decide

/-- C8: after successful symbol generation, if an output path was given
the PNG sink is invoked and the terminal renderer never is; if no output
path was given and the `isTerminal` check for standard output fails, the
process emits the not-a-terminal message and exits with status 1 without
rendering anything. -/
theorem output_routing (env : Env) (flags : Flags)
    (qrNew : List Nat → RecoveryLevel → Except String QrCode)
    (inputData : List Nat) (qr : QrCode)
    (hgen : qrNew (prepareContent flags.base64Flag inputData)
      (selectRecoveryLevel flags.recovery) = Except.ok qr) :
    (flags.outputFile ≠ "" →
      (runMain env flags qrNew inputData).displayed = false ∧
      (runMain env flags qrNew inputData).wroteFile = true) ∧
    (flags.outputFile = "" → isTerminal env stdoutFd = false →
      (runMain env flags qrNew inputData).exitCode = 1 ∧
      Msg.notTerminal ∈ (runMain env flags qrNew inputData).stderr ∧
      (runMain env flags qrNew inputData).displayed = false ∧
      (runMain env flags qrNew inputData).stdoutLines = []) := by
  constructor
  · intro hout
    simp only [runMain, hgen, if_pos hout]
    cases qr.writeFile flags.size flags.outputFile <;> exact ⟨rfl, rfl⟩
  · intro hout hterm
    simp only [runMain, hgen, hout, hterm]
    simp

theorem output_routing_witness :
    qrNewOk (prepareContent flagsOut.base64Flag []) (selectRecoveryLevel flagsOut.recovery) =
      Except.ok qrSample ∧
    flagsOut.outputFile ≠ "" ∧
    (runMain envBothTerm flagsOut qrNewOk []).displayed = false ∧
    (runMain envBothTerm flagsOut qrNewOk []).wroteFile = true :=
  ⟨rfl, by decide,
   ((output_routing envBothTerm flagsOut qrNewOk [] qrSample rfl).1 (by decide)).1,
   ((output_routing envBothTerm flagsOut qrNewOk [] qrSample rfl).1 (by decide)).2⟩

/-- C9: `isTerminal` ignores its file-descriptor argument — it gives the
same answer for any two descriptors, that answer is exactly whether
`os.Stdout.Stat()` succeeded with the character-device bit set, and the
whole program run is unaffected by whether standard error is a
character device. -/
theorem isTerminal_ignores_fd :
    (∀ (env : Env) (fd1 fd2 : Nat), isTerminal env fd1 = isTerminal env fd2) ∧
    (∀ (env : Env) (fd : Nat), isTerminal env fd = (!env.stdoutStatErr && env.stdoutCharDev)) ∧
    (∀ (env : Env) (flags : Flags)
      (qrNew : List Nat → RecoveryLevel → Except String QrCode)
      (inputData : List Nat) (b : Bool),
      runMain { env with stderrCharDev := b } flags qrNew inputData =
        runMain env flags qrNew inputData) := by
  refine ⟨fun env fd1 fd2 => rfl, fun env fd => ?_, fun env flags qrNew inputData b => rfl⟩
  cases h : env.stdoutStatErr <;> simp [isTerminal, h]

/-- C10: when the generated symbol rasterizes to a bitmap with empty
bounds and the terminal path is taken, the renderer reports the
invalid-dimensions error on standard error and emits nothing on
standard output, and the program continues to exit with status 0. -/
theorem invalid_dims_render (env : Env) (flags : Flags)
    (qrNew : List Nat → RecoveryLevel → Except String QrCode)
    (inputData : List Nat) (qr : QrCode)
    (hgen : qrNew (prepareContent flags.base64Flag inputData)
      (selectRecoveryLevel flags.recovery) = Except.ok qr)
    (hout : flags.outputFile = "")
    (hterm : isTerminal env stdoutFd = true)
    (hdims : dx (qr.image flags.terminalSize) ≤ 0 ∨ dy (qr.image flags.terminalSize) ≤ 0) :
    (runMain env flags qrNew inputData).exitCode = 0 ∧
    Msg.invalidDims ∈ (runMain env flags qrNew inputData).stderr ∧
    (runMain env flags qrNew inputData).stdoutLines = [] := by
  simp only [runMain, hgen, hout, hterm, displayImageInTerminal, if_pos hdims]
  simp

theorem invalid_dims_render_witness :
    qrNewEmpty (prepareContent flagsTerm.base64Flag []) (selectRecoveryLevel flagsTerm.recovery) =
      Except.ok qrEmpty ∧
    flagsTerm.outputFile = "" ∧
    isTerminal envBothTerm stdoutFd = true ∧
    (dx (qrEmpty.image flagsTerm.terminalSize) ≤ 0 ∨
      dy (qrEmpty.image flagsTerm.terminalSize) ≤ 0) ∧
    (runMain envBothTerm flagsTerm qrNewEmpty []).exitCode = 0 ∧
    Msg.invalidDims ∈ (runMain envBothTerm flagsTerm qrNewEmpty []).stderr :=
  ⟨rfl, rfl, rfl, by decide,
   (invalid_dims_render envBothTerm flagsTerm qrNewEmpty [] qrEmpty rfl rfl rfl (by decide)).1,
   (invalid_dims_render envBothTerm flagsTerm qrNewEmpty [] qrEmpty rfl rfl rfl (by decide)).2.1⟩

end File2qr
